import Mathlib

/-!
# Verification of the Smart Blur Tool client (App.jsx)

Shallow embedding of the React client in `src/myapp/src/App.jsx` (the evolved
variant; `src/unnamed/part_001` is an earlier draft of the same component).
Canvas pixel buffers are modelled as flat lists of RGBA pixels, exactly the
layout of `ImageData.data` that the source iterates over.  React `useState`
fields become fields of `ClientState`; each event handler becomes a state
transition function.  Asynchronous image loads (`img.onload`) are modelled as
completing in the order their `src` was assigned, and the stale-closure
semantics of React function components is modelled faithfully: a handler that
calls another handler of the same render reads the state values captured at
that render, not the values set by an intervening `setX` call.
-/

/-- One pixel of a canvas `ImageData` buffer: four 8-bit channels. -/
structure RGBA where
  r : Nat
  g : Nat
  b : Nat
  a : Nat
deriving DecidableEq, Repr

/-- A canvas pixel buffer: the flat pixel list underlying `ImageData.data`
(the source walks it four bytes at a time, `i += 4`). -/
abbrev Buf := List RGBA

/-- Opaque black, the result of the black `fillRect` fill
(App.jsx lines 81-82, 246-247). -/
def blackPixel : RGBA := ⟨0, 0, 0, 255⟩

/-- Opaque white, the result of the white disc fills
(App.jsx lines 135-138). -/
def whitePixel : RGBA := ⟨255, 255, 255, 255⟩

/-- The effect of `maskCtx.fillRect(0, 0, w, h)` with fill style black: every pixel of
the buffer becomes opaque black. -/
def fillBlack (buf : Buf) : Buf := buf.map fun _ => blackPixel

/-- The guard `imageData.data.some(pixel => pixel > 0)` (App.jsx line 180): tests every
byte of the RGBA stream, the alpha bytes included. -/
def hasContent (m : Buf) : Bool :=
  ((m.map fun p => [p.r, p.g, p.b, p.a]).flatten).any fun v => 0 < v

/-- The selection value of a mask pixel: the source samples the red channel,
`imageData.data[i]` at stride 4 (App.jsx line 151). -/
def selVal (p : RGBA) : Nat := p.r

/-- A mask whose selection channel is everywhere zero (the spec's all-zero
`SelectionMask`): no pixel is selected. -/
def selectionAllZero (m : Buf) : Bool := m.all fun p => selVal p = 0

/-- The two transform modes (the `mode` field, initially blur). -/
inductive Mode where
  | blur
  | inpaint
deriving DecidableEq, Repr

/-- Backend health as tracked by `backendStatus` (App.jsx line 15). -/
inductive BackendStatus where
  | checking
  | online
  | offline
deriving DecidableEq, Repr

/-- The dismissible error messages the client can set; each constructor stands
for one literal string in App.jsx. -/
inductive ClientError where
  /-- Message "Please upload a valid image file" (line 51) -/
  | invalidFileType
  /-- Message "Image size should be less than 10MB" (line 57) -/
  | fileTooLarge
  /-- Message "Failed to load image" (line 89) or "Failed to read file" (line 94) -/
  | failedDecode
  /-- Message "Backend is offline. Please start the backend server first." (line 164) -/
  | backendOffline
  /-- Message "Please draw on the image first to select an area" (line 183) -/
  | emptySelectionMsg
  /-- Message "Failed to process: ..." after a thrown error, e.g. a non-ok HTTP status
  (lines 204, 229) -/
  | requestFailed
  /-- Message `data.error` (or a fixed fallback text) on a failed response
  (line 225) -/
  | processingFailed (msg : String)
  /-- Message "Backend is not responding correctly" or the cannot-connect text
  (lines 37, 41) -/
  | healthFailed
deriving DecidableEq, Repr

/-- The React state of `App` plus the two canvas element buffers and a count
of outstanding transform requests (for stating the at-most-one-in-flight
property). -/
structure ClientState where
  /-- Field `image`: the data URL of the first successfully loaded upload. -/
  image : Option Buf
  /-- Field `originalImage`: the working image, sent with each request and used as
  the base of every preview recomposite. -/
  originalImage : Option Buf
  /-- Pixels of the visible canvas (`canvasRef`). -/
  canvas : Buf
  /-- Pixels of the hidden mask canvas (`maskCanvasRef`). -/
  maskCanvas : Buf
  /-- Width of both canvases, used to decode flat indices into (x, y). -/
  canvasW : Nat
  brushSize : Nat
  mode : Mode
  isProcessing : Bool
  error : Option ClientError
  backendStatus : BackendStatus
  /-- Number of transform requests currently awaiting a response. -/
  inFlight : Nat
deriving DecidableEq, Repr

/-- The initial render: all `useState` initial values (App.jsx lines 8-15),
empty canvases, nothing in flight. -/
def initState : ClientState :=
  { image := none
    originalImage := none
    canvas := []
    maskCanvas := []
    canvasW := 0
    brushSize := 20
    mode := Mode.blur
    isProcessing := false
    error := none
    backendStatus := BackendStatus.checking
    inFlight := 0 }

/-- An uploaded file as `handleImageUpload` observes it: its MIME type class,
its byte size, whether the browser can decode it, and (when decodable) the
decoded pixel grid and width. -/
structure UploadFile where
  /-- Whether `file.type` starts with the image MIME prefix (line 50). -/
  isImageType : Bool
  /-- Size `file.size` in bytes (line 56). -/
  size : Nat
  /-- Whether `FileReader` plus `new Image()` succeed (lines 88-95). -/
  decodable : Bool
  /-- The decoded pixels. -/
  content : Buf
  /-- The decoded width. -/
  width : Nat
deriving DecidableEq, Repr

/-- Handler `handleImageUpload` (App.jsx lines 45-97): validates type and size, then
decodes; on success it sizes both canvases to the image, draws the image,
fills the mask canvas opaque black, and stores the data URL as both `image`
and `originalImage`, clearing the error.  Every failure path only sets an
error message. -/
def handleImageUpload (s : ClientState) (f : UploadFile) : ClientState :=
  if ¬ f.isImageType then
    { s with error := some ClientError.invalidFileType }
  else if 10 * 1024 * 1024 < f.size then
    { s with error := some ClientError.fileTooLarge }
  else if ¬ f.decodable then
    { s with error := some ClientError.failedDecode }
  else
    { s with
        canvas := f.content
        canvasW := f.width
        maskCanvas := fillBlack f.content
        image := some f.content
        originalImage := some f.content
        error := none }

/-- Whether flat pixel index `i` of a canvas of width `w` lies inside the
brush disc of radius `r` centered at `(cx, cy)`: the model of
`maskCtx.arc(pos.x, pos.y, brushSize, 0, 2π); fill()` coverage, with
`x = i % w` and `y = i / w` exactly as the preview loop decodes indices
(App.jsx lines 152-153). -/
def inDisc (w : Nat) (cx cy : Int) (r : Nat) (i : Nat) : Bool :=
  decide (((i % w : Nat) - cx) ^ 2 + ((i / w : Nat) - cy) ^ 2 ≤ (r : Int) ^ 2)

/-- Fill the brush disc with opaque white on a buffer, walking the buffer with
its flat index (the white disc fill of App.jsx lines 135-138). -/
def arcFillWhite (w : Nat) (cx cy : Int) (r : Nat) : Nat → Buf → Buf
  | _, [] => []
  | i, p :: ps =>
      (if inDisc w cx cy r i then whitePixel else p) :: arcFillWhite w cx cy r (i + 1) ps

/-- The translucent highlight: a 1×1 red `fillRect` at `globalAlpha = 0.4`
source-over composited on a pixel, i.e. `0.4·red + 0.6·dst` per channel
(App.jsx lines 146-154), with the float math modelled in tenths. -/
def highlight (p : RGBA) : RGBA :=
  ⟨(4 * 255 + 6 * p.r) / 10, 6 * p.g / 10, 6 * p.b / 10, (4 * 255 + 6 * p.a) / 10⟩

/-- The preview recomposite of `draw` (App.jsx lines 141-158): redraw the
working image, then overlay the highlight on exactly the pixels whose mask
red channel is positive. -/
def preview (orig : Buf) (mask : Buf) : Buf :=
  List.zipWith (fun op mp => if 0 < selVal mp then highlight op else op) orig mask

/-- Handler `draw` (App.jsx lines 122-160) for one mouse event at `(cx, cy)`: paint
the white brush disc into the mask canvas, then recompute the preview from
the unmodified working image `originalImage` (line 159) over the new mask.
When `originalImage` is null the `img.onload` callback never fires and only
the mask changes. -/
def draw (s : ClientState) (cx cy : Int) : ClientState :=
  let mask1 := arcFillWhite s.canvasW cx cy s.brushSize 0 s.maskCanvas
  match s.originalImage with
  | none => { s with maskCanvas := mask1 }
  | some o => { s with maskCanvas := mask1, canvas := preview o mask1 }

/-- Handler `clearMask` (App.jsx lines 236-255): fill the mask canvas opaque black
and redraw the `originalImage` this closure captured onto the visible canvas
(no redraw happens when it is null). -/
def clearMask (s : ClientState) : ClientState :=
  { s with
      maskCanvas := fillBlack s.maskCanvas
      canvas := match s.originalImage with
                | some o => o
                | none => s.canvas }

/-- Handler `resetImage` (App.jsx lines 257-271): guard on `image`; set
`originalImage` to the first loaded image; queue a redraw of that image; then
call `clearMask()`.  `clearMask` is the closure of the same render, so the
`originalImage` it redraws is the pre-reset working image (the `setOriginalImage`
call has not changed this render's binding), and its load was queued second,
so its draw lands last on the canvas. -/
def resetImage (s : ClientState) : ClientState :=
  match s.image with
  | none => s
  | some first =>
      { s with
          originalImage := some first
          maskCanvas := fillBlack s.maskCanvas
          canvas := match s.originalImage with
                    | some oldWork => oldWork
                    | none => first }

/-- A JSON value occurring in the request body: either a canvas data-URL
payload (standing for the encoded pixels) or a number. -/
inductive JsonVal where
  /-- A data-URL payload of a buffer (canvas toDataURL), or the stored data URL of
  the working image; `none` models a null `originalImage`. -/
  | imgData (pixels : Option Buf)
  | num (n : Nat)
deriving DecidableEq, Repr

/-- The endpoint chosen from the mode:
a ternary on `mode` (App.jsx line 188). -/
def endpointFor : Mode → String
  | Mode.blur => "/blur"
  | Mode.inpaint => "/inpaint"

/-- The JSON body of `fetch` (App.jsx lines 196-200): the fields of
`JSON.stringify({image: originalImage, mask: maskData, kernel_size: 35})`
in source order. -/
def requestBody (s : ClientState) : List (String × JsonVal) :=
  [("image", JsonVal.imgData s.originalImage),
   ("mask", JsonVal.imgData (some s.maskCanvas)),
   ("kernel_size", JsonVal.num 35)]

/-- One transform request as put on the wire. -/
structure EditRequest where
  endpoint : String
  body : List (String × JsonVal)
deriving DecidableEq, Repr

/-- The synchronous prefix of `applyProcessing` (App.jsx lines 162-201), up to
and including the `fetch` call: returns the state after the prefix together
with the request sent, if any.  The offline guard (lines 163-166) runs before
`setIsProcessing(true)`; the empty-mask guard (lines 177-186) tests
`hasContent` over every RGBA byte and, when it fires, resets `isProcessing`
and sends nothing. -/
def applyProcessingStart (s : ClientState) : ClientState × Option EditRequest :=
  if s.backendStatus ≠ BackendStatus.online then
    ({ s with error := some ClientError.backendOffline }, none)
  else
    let s1 := { s with isProcessing := true, error := none }
    if ¬ hasContent s.maskCanvas then
      ({ s1 with error := some ClientError.emptySelectionMsg, isProcessing := false }, none)
    else
      ({ s1 with inFlight := s.inFlight + 1 },
       some { endpoint := endpointFor s.mode, body := requestBody s })

/-- A transform response as the client sees it: HTTP status ok or not, and on
ok the parsed `{success, result, error}` body, with `result` already decoded
to pixels (the spec's `EditResult` carries a `SourceImage` on success). -/
structure EditResult where
  ok : Bool
  success : Bool
  result : Buf
  /-- Here `none` models a missing or empty `data.error`. -/
  errorMsg : Option String
deriving DecidableEq, Repr

/-- The continuation of `applyProcessing` once the response arrives (App.jsx
lines 203-233).  A non-ok status throws into the catch block (error message,
`backendStatus` offline).  On `success` the result is drawn, `originalImage`
is replaced, and `clearMask()` runs — with this render's stale `originalImage`
binding, so its queued redraw lands the pre-edit working image on the visible
canvas.  On `success: false` only the error is set.  `finally` clears
`isProcessing`; the request has left flight. -/
def applyProcessingResponse (s : ClientState) (r : EditResult) : ClientState :=
  let s0 := { s with inFlight := s.inFlight - 1, isProcessing := false }
  if ¬ r.ok then
    { s0 with error := some ClientError.requestFailed
              backendStatus := BackendStatus.offline }
  else if r.success then
    { s0 with
        originalImage := some r.result
        maskCanvas := fillBlack s.maskCanvas
        canvas := match s.originalImage with
                  | some oldWork => oldWork
                  | none => r.result }
  else
    { s0 with error := some (ClientError.processingFailed
        (match r.errorMsg with
         | some m => m
         | none => "Processing failed")) }

/-- Handler `checkBackendHealth` outcome (App.jsx lines 26-43). -/
def healthOutcome (s : ClientState) (ok : Bool) : ClientState :=
  if ok then { s with backendStatus := BackendStatus.online, error := none }
  else { s with backendStatus := BackendStatus.offline
                error := some ClientError.healthFailed }

/-- Every user- or network-driven event of the component. -/
inductive ClientAction where
  /-- Choosing a file in the upload input. -/
  | upload (f : UploadFile)
  /-- A mousedown / drag event on the canvas at image coordinates. -/
  | paint (cx cy : Int)
  /-- Clicking the Apply button. -/
  | clickApply
  /-- The response of an in-flight transform request arriving. -/
  | respond (r : EditResult)
  /-- Clicking Clear Mask. -/
  | clickClear
  /-- Clicking Reset. -/
  | clickReset
  /-- Clicking the brush "−" button: `setBrushSize(Math.max(5, brushSize - 5))`
  (App.jsx line 382). -/
  | brushMinus
  /-- Clicking the brush "+" button: `setBrushSize(Math.min(100, brushSize + 5))`
  (App.jsx line 391). -/
  | brushPlus
  /-- Clicking the Blur / Remove mode buttons. -/
  | setModeTo (m : Mode)
  /-- Clicking New Image (App.jsx lines 469-478). -/
  | newImage
  /-- A health check completing. -/
  | health (ok : Bool)
  /-- Dismissing the error banner. -/
  | dismissError
deriving DecidableEq, Repr

/-- One step of the client.  Editor-area controls (canvas, Apply, Clear,
Reset, brush, mode, New Image) exist only while `image` is set (the JSX
renders the upload area otherwise); the Apply button is additionally
disabled while `isProcessing` is set or the backend is not online (App.jsx line 421);
a response can only arrive while a request is in flight. -/
def step (s : ClientState) (a : ClientAction) : ClientState :=
  match a with
  | ClientAction.upload f => if s.image = none then handleImageUpload s f else s
  | ClientAction.paint cx cy => if s.image = none then s else draw s cx cy
  | ClientAction.clickApply =>
      if s.image = none then s
      else if s.isProcessing || s.backendStatus ≠ BackendStatus.online then s
      else (applyProcessingStart s).1
  | ClientAction.respond r => if s.inFlight = 0 then s else applyProcessingResponse s r
  | ClientAction.clickClear => if s.image = none then s else clearMask s
  | ClientAction.clickReset => if s.image = none then s else resetImage s
  | ClientAction.brushMinus =>
      if s.image = none then s else { s with brushSize := max 5 (s.brushSize - 5) }
  | ClientAction.brushPlus =>
      if s.image = none then s else { s with brushSize := min 100 (s.brushSize + 5) }
  | ClientAction.setModeTo m => if s.image = none then s else { s with mode := m }
  | ClientAction.newImage =>
      if s.image = none then s
      else { s with image := none, originalImage := none, error := none }
  | ClientAction.health ok => healthOutcome s ok
  | ClientAction.dismissError => { s with error := none }

/-- The states the client can reach from its initial render. -/
inductive Reachable : ClientState → Prop where
  | init : Reachable initState
  | step {s : ClientState} (h : Reachable s) (a : ClientAction) : Reachable (step s a)

/-- Modelled from the spec: the Region Transform Engine (the Python backend of
`blur_tool_api.py`, referenced by the setup notes but not present in the
sources) feathers a binary mask before using it as the blend alpha.  A hard
mask edge, seen along a scanline crossing the disc boundary at `b`, is a step
function with values 0 (outside) and 255 (inside). -/
def stepMask (b : Int) (x : Int) : ℚ := if x < b then 0 else 255

/-- Modelled from the spec: "a small Gaussian blur of the mask itself ...
before using it as the alpha channel", with the box kernel the spec admits as
an acceptable approximation: the average of the mask over a window of radius
`r` around `x`. -/
def boxBlur1D (r : Nat) (m : Int → ℚ) (x : Int) : ℚ :=
  (((List.range (2 * r + 1)).map fun (j : Nat) => m (x - r + j)).sum) / (2 * r + 1)

/-- Modelled from the spec: the feather radius is "proportional to kernelSize,
e.g. kernelSize/3". -/
def featherRadius (kernelSize : Nat) : Nat := kernelSize / 3

/-- Modelled from the spec: `lerp(a, b, t) = a*(1-t) + b*t` (glossary). -/
def lerp (a c t : ℚ) : ℚ := a * (1 - t) + c * t

/-- Modelled from the spec: blur mode's per-pixel output along the scanline,
`lerp(original, blurred, alpha)` with `alpha = featheredMask / 255`, with
`orig` and `blurred` the original and globally blurred intensities (locally
constant across the boundary neighbourhood, so that the transition there is
the mask's). -/
def blurModeOutput (kernelSize : Nat) (b : Int) (orig blurred : ℚ) (x : Int) : ℚ :=
  lerp orig blurred (boxBlur1D (featherRadius kernelSize) (stepMask b) x / 255)

/-- A 1×1 test image. -/
def imgA : Buf := [⟨10, 20, 30, 255⟩]

/-- A different 1×1 test image (e.g. an edit result). -/
def imgB : Buf := [⟨200, 100, 50, 255⟩]

/-- A valid upload of `imgA`. -/
def goodFile : UploadFile := ⟨true, 4, true, imgA, 1⟩

/-- An upload whose MIME type is not `image/*`. -/
def badFile : UploadFile := ⟨false, 4, true, imgA, 1⟩

/-- The client right after a health check succeeded and `imgA` was uploaded:
backend online, working image loaded, mask canvas opaque black. -/
def loadedState : ClientState :=
  step (step initState (ClientAction.health true)) (ClientAction.upload goodFile)

/-- State `loadedState` after one successful blur edit whose result was `imgB`:
the working image is now `imgB` while `image` still holds the first upload
`imgA`. -/
def editedState : ClientState :=
  step (step loadedState ClientAction.clickApply)
    (ClientAction.respond ⟨true, true, imgB, none⟩)

/-- A second valid upload, carrying `imgB`. -/
def goodFile2 : UploadFile := ⟨true, 8, true, imgB, 1⟩

/-- A loaded client switched to inpaint mode with an adjusted brush. -/
def loadedInpaintState : ClientState :=
  step (step (step (step initState (ClientAction.health true))
    (ClientAction.upload goodFile2)) (ClientAction.setModeTo Mode.inpaint))
    ClientAction.brushPlus

lemma selectionAllZero_fillBlack (m : Buf) : selectionAllZero (fillBlack m) = true := by
  simp [fillBlack, selectionAllZero, selVal, blackPixel]

/-- C9: in every reachable client state the brush radius lies in [5, 100]:
it starts at 20 and the +/− controls clamp to `max 5 (b − 5)` and
`min 100 (b + 5)`. -/
theorem brushSize_in_range (s : ClientState) (h : Reachable s) :
    5 ≤ s.brushSize ∧ s.brushSize ≤ 100 := by
  induction h with
  | init => exact ⟨by decide, by decide⟩
  | step h a ih =>
    cases a <;>
      simp only [step, handleImageUpload, draw, clearMask, resetImage, healthOutcome,
        applyProcessingStart, applyProcessingResponse] <;>
      (repeat' split) <;>
      simp_all <;> omega

theorem brushSize_in_range_startup : 5 ≤ initState.brushSize ∧ initState.brushSize ≤ 100 :=
  brushSize_in_range initState Reachable.init

/-- C5: `handleImageUpload` with an undecodable, wrongly-typed, or oversized
file only sets an error and leaves the working image, first image, mask and
canvas untouched; a valid upload records the decoded image as both `image`
and `originalImage`, resets the selection mask to all-zero, and clears the
error. -/
theorem loadImage_semantics (s : ClientState) (f : UploadFile) :
    ((f.isImageType = false ∨ 10 * 1024 * 1024 < f.size ∨ f.decodable = false) →
      (handleImageUpload s f).originalImage = s.originalImage
      ∧ (handleImageUpload s f).image = s.image
      ∧ (handleImageUpload s f).maskCanvas = s.maskCanvas
      ∧ (handleImageUpload s f).canvas = s.canvas
      ∧ (handleImageUpload s f).error.isSome = true)
    ∧ (f.isImageType = true → f.size ≤ 10 * 1024 * 1024 → f.decodable = true →
      (handleImageUpload s f).image = some f.content
      ∧ (handleImageUpload s f).originalImage = some f.content
      ∧ selectionAllZero (handleImageUpload s f).maskCanvas = true
      ∧ (handleImageUpload s f).error = none) := by
  constructor
  · intro hbad
    unfold handleImageUpload
    rcases hbad with hb | hb | hb <;> split_ifs <;> simp_all
  · intro h1 h2 h3
    unfold handleImageUpload
    split_ifs <;> simp_all [selectionAllZero_fillBlack] <;> omega

theorem loadImage_semantics_check :
    ((handleImageUpload initState badFile).originalImage = initState.originalImage
      ∧ (handleImageUpload initState badFile).image = initState.image
      ∧ (handleImageUpload initState badFile).maskCanvas = initState.maskCanvas
      ∧ (handleImageUpload initState badFile).canvas = initState.canvas
      ∧ (handleImageUpload initState badFile).error.isSome = true)
    ∧ ((handleImageUpload initState goodFile).image = some goodFile.content
      ∧ (handleImageUpload initState goodFile).originalImage = some goodFile.content
      ∧ selectionAllZero (handleImageUpload initState goodFile).maskCanvas = true
      ∧ (handleImageUpload initState goodFile).error = none) :=
  ⟨(loadImage_semantics initState badFile).1 (Or.inl (by decide)),
   (loadImage_semantics initState goodFile).2 (by decide) (by decide) (by decide)⟩

/-- C3: when an `EditResult` is received (HTTP ok), a `success` result
replaces the working image with the returned image and clears the selection
mask to all-zero; a failed result leaves working image, mask, canvas and
first image unchanged and surfaces the server's error message. -/
theorem applyResult_semantics (s : ClientState) (r : EditResult) (hok : r.ok = true) :
    (r.success = true →
      (applyProcessingResponse s r).originalImage = some r.result
      ∧ selectionAllZero (applyProcessingResponse s r).maskCanvas = true)
    ∧ (r.success = false →
      (applyProcessingResponse s r).originalImage = s.originalImage
      ∧ (applyProcessingResponse s r).maskCanvas = s.maskCanvas
      ∧ (applyProcessingResponse s r).canvas = s.canvas
      ∧ (applyProcessingResponse s r).image = s.image
      ∧ (applyProcessingResponse s r).error.isSome = true) := by
  constructor
  · intro hs
    unfold applyProcessingResponse
    simp [hok, hs, selectionAllZero_fillBlack]
  · intro hs
    unfold applyProcessingResponse
    simp [hok, hs]

theorem applyResult_semantics_check :
    ((applyProcessingResponse loadedState ⟨true, true, imgB, none⟩).originalImage = some imgB
      ∧ selectionAllZero (applyProcessingResponse loadedState ⟨true, true, imgB, none⟩).maskCanvas
          = true)
    ∧ ((applyProcessingResponse loadedState ⟨true, false, imgB, some "boom"⟩).originalImage
          = loadedState.originalImage
      ∧ (applyProcessingResponse loadedState ⟨true, false, imgB, some "boom"⟩).maskCanvas
          = loadedState.maskCanvas
      ∧ (applyProcessingResponse loadedState ⟨true, false, imgB, some "boom"⟩).canvas
          = loadedState.canvas
      ∧ (applyProcessingResponse loadedState ⟨true, false, imgB, some "boom"⟩).image
          = loadedState.image
      ∧ (applyProcessingResponse loadedState ⟨true, false, imgB, some "boom"⟩).error.isSome
          = true) :=
  ⟨(applyResult_semantics loadedState ⟨true, true, imgB, none⟩ rfl).1 rfl,
   (applyResult_semantics loadedState ⟨true, false, imgB, some "boom"⟩ rfl).2 rfl⟩

/-- C1: the empty-selection guard never fires after a load.  After uploading
`imgA` the mask canvas is opaque black — its selection channel is all-zero —
yet `imageData.data.some(pixel => pixel > 0)` also scans the alpha bytes,
which are 255, so `hasContent` is true: clicking Apply sends the network
request instead of raising the empty-selection error. -/
theorem emptySelection_guard_dead :
    selectionAllZero loadedState.maskCanvas = true
    ∧ hasContent loadedState.maskCanvas = true
    ∧ (applyProcessingStart loadedState).2.isSome = true
    ∧ (applyProcessingStart loadedState).1.error = none := by decide

/-- C7: after a successful edit (working image `imgB`, first upload `imgA`),
Reset restores the stored working image to `imgA` and clears the mask, but
the visible canvas ends up showing `imgB`: the `clearMask()` call inside
`resetImage` redraws the `originalImage` captured by this render's closure —
the pre-reset working image — and that queued draw lands last. -/
theorem resetImage_leaves_stale_canvas :
    (step editedState ClientAction.clickReset).originalImage = some imgA
    ∧ selectionAllZero (step editedState ClientAction.clickReset).maskCanvas = true
    ∧ (step editedState ClientAction.clickReset).canvas = imgB
    ∧ imgB ≠ imgA := by decide

/-- C10: every transform request the client sends carries the literal
`kernel_size: 35`, whatever the mode, mask, or brush size. -/
theorem kernelSize_constant_35 (s : ClientState) (req : EditRequest)
    (h : (applyProcessingStart s).2 = some req) :
    req.body.lookup "kernel_size" = some (JsonVal.num 35) := by
  unfold applyProcessingStart at h
  split_ifs at h
  dsimp only at h
  rw [Option.some_inj] at h
  subst h
  rfl

theorem kernelSize_constant_35_check :
    (applyProcessingStart loadedInpaintState).2 =
      some { endpoint := "/inpaint", body := requestBody loadedInpaintState }
    ∧ ({ endpoint := "/inpaint", body := requestBody loadedInpaintState } : EditRequest).body.lookup
        "kernel_size" = some (JsonVal.num 35) :=
  ⟨by decide, kernelSize_constant_35 loadedInpaintState _ (by decide)⟩

/-- C2 (counterexample): the request actually sent from `loadedState` has the
three body fields image, mask, kernel_size — no `mode` field, and not four
fields — so the claim that every request body carries four fields including a
mode string fails on the code. -/
theorem requestBody_has_no_mode_field :
    (applyProcessingStart loadedState).2 =
      some { endpoint := "/blur", body := requestBody loadedState }
    ∧ (requestBody loadedState).map Prod.fst = ["image", "mask", "kernel_size"]
    ∧ ((requestBody loadedState).map Prod.fst).contains "mode" = false
    ∧ ((requestBody loadedState).map Prod.fst).length = 3 := by decide

/-- C2 (amended): every transform request the client sends carries exactly
the three body fields image, mask and a numeric kernel_size; the
blur | inpaint mode is conveyed by the endpoint path, not by a body field. -/
theorem request_fields (s : ClientState) (req : EditRequest)
    (h : (applyProcessingStart s).2 = some req) :
    req.body.map Prod.fst = ["image", "mask", "kernel_size"]
    ∧ (req.body.map Prod.fst).contains "mode" = false
    ∧ (∃ n : Nat, req.body.lookup "kernel_size" = some (JsonVal.num n))
    ∧ req.endpoint = endpointFor s.mode := by
  unfold applyProcessingStart at h
  split_ifs at h
  dsimp only at h
  rw [Option.some_inj] at h
  subst h
  exact ⟨rfl, rfl, ⟨35, rfl⟩, rfl⟩

theorem request_fields_check :
    (applyProcessingStart loadedState).2 =
      some { endpoint := "/blur", body := requestBody loadedState }
    ∧ (((requestBody loadedState).map Prod.fst = ["image", "mask", "kernel_size"])
      ∧ ((requestBody loadedState).map Prod.fst).contains "mode" = false
      ∧ (∃ n : Nat, (requestBody loadedState).lookup "kernel_size" = some (JsonVal.num n))
      ∧ ({ endpoint := "/blur", body := requestBody loadedState } : EditRequest).endpoint
          = endpointFor loadedState.mode) :=
  ⟨by decide,
   request_fields loadedState { endpoint := "/blur", body := requestBody loadedState } (by decide)⟩

lemma inFlight_isProcessing_invariant (s : ClientState) (h : Reachable s) :
    s.inFlight ≤ 1 ∧ (s.isProcessing = false → s.inFlight = 0) := by
  induction h with
  | init => exact ⟨by decide, fun _ => by decide⟩
  | step h a ih =>
    cases a <;>
      simp only [step, handleImageUpload, draw, clearMask, resetImage, healthOutcome,
        applyProcessingStart, applyProcessingResponse] <;>
      (repeat' split) <;>
      simp_all <;> omega

/-- C8: every reachable client state has at most one transform request in
flight, and while `isProcessing` is true a click of the Apply trigger is a
no-op (the button is disabled). -/
theorem at_most_one_request_in_flight (s : ClientState) (h : Reachable s) :
    s.inFlight ≤ 1
    ∧ (s.isProcessing = true → step s ClientAction.clickApply = s) := by
  refine ⟨(inFlight_isProcessing_invariant s h).1, ?_⟩
  intro hp
  simp [step, hp]

theorem at_most_one_request_in_flight_check :
    initState.inFlight ≤ 1
    ∧ (initState.isProcessing = true → step initState ClientAction.clickApply = initState) :=
  at_most_one_request_in_flight initState Reachable.init

lemma arcFillWhite_idem (w : Nat) (cx cy : Int) (r : Nat) (m : Buf) (i : Nat) :
    arcFillWhite w cx cy r i (arcFillWhite w cx cy r i m) = arcFillWhite w cx cy r i m := by
  induction m generalizing i with
  | nil => rfl
  | cons p ps ih =>
    by_cases hc : inDisc w cx cy r i <;> simp [arcFillWhite, hc, ih]

lemma preview_get? (o m : Buf) (i : Nat) :
    (preview o m).get? i =
      match o.get? i, m.get? i with
      | some op, some mp => some (if 0 < selVal mp then highlight op else op)
      | _, _ => none := by
  unfold preview
  rw [List.get?_zipWith']
  cases o.get? i <;> cases m.get? i <;> rfl

lemma draw_eq (s : ClientState) (cx cy : Int) (o : Buf) (h : s.originalImage = some o) :
    draw s cx cy =
      { s with maskCanvas := arcFillWhite s.canvasW cx cy s.brushSize 0 s.maskCanvas,
               canvas := preview o (arcFillWhite s.canvasW cx cy s.brushSize 0 s.maskCanvas) } := by
  unfold draw
  rw [h]

lemma draw_idem (s : ClientState) (cx cy : Int) (o : Buf) (h : s.originalImage = some o) :
    draw (draw s cx cy) cx cy = draw s cx cy := by
  rw [draw_eq s cx cy o h]
  rw [draw_eq { s with
        maskCanvas := arcFillWhite s.canvasW cx cy s.brushSize 0 s.maskCanvas,
        canvas := preview o (arcFillWhite s.canvasW cx cy s.brushSize 0 s.maskCanvas) }
      cx cy o h]
  dsimp only
  rw [arcFillWhite_idem]

/-- C6: after a paint event the live preview equals the unmodified working
image with the translucent highlight composited over exactly the pixels whose
mask selection value is positive (pointwise characterization included), and
the preview is recomputed from the working image each stroke: any number of
repeated strokes over the same disc leaves the state — preview included —
exactly as after a single such stroke. -/
theorem preview_recomputed_each_stroke (s : ClientState) (o : Buf) (cx cy : Int)
    (h : s.originalImage = some o) :
    (draw s cx cy).canvas = preview o (draw s cx cy).maskCanvas
    ∧ (∀ i : Nat, ((draw s cx cy).canvas).get? i =
        match o.get? i, ((draw s cx cy).maskCanvas).get? i with
        | some op, some mp => some (if 0 < selVal mp then highlight op else op)
        | _, _ => none)
    ∧ (∀ n : Nat, (fun t => draw t cx cy)^[n + 1] s = draw s cx cy) := by
  refine ⟨?_, ?_, ?_⟩
  · rw [draw_eq s cx cy o h]
  · intro i
    rw [draw_eq s cx cy o h]
    exact preview_get? o (arcFillWhite s.canvasW cx cy s.brushSize 0 s.maskCanvas) i
  · intro n
    induction n with
    | zero => simp
    | succ n ihn =>
      rw [Function.iterate_succ_apply', ihn]
      exact draw_idem s cx cy o h

theorem preview_recomputed_each_stroke_check :
    loadedState.originalImage = some imgA
    ∧ ((draw loadedState 0 0).canvas = preview imgA (draw loadedState 0 0).maskCanvas
      ∧ (∀ i : Nat, ((draw loadedState 0 0).canvas).get? i =
          match imgA.get? i, ((draw loadedState 0 0).maskCanvas).get? i with
          | some op, some mp => some (if 0 < selVal mp then highlight op else op)
          | _, _ => none)
      ∧ (∀ n : Nat, (fun t => draw t 0 0)^[n + 1] loadedState = draw loadedState 0 0)) :=
  ⟨by decide, preview_recomputed_each_stroke loadedState imgA 0 0 (by decide)⟩

lemma stepMask_mono (b : Int) : Monotone (stepMask b) := by
  intro x y hxy
  unfold stepMask
  split_ifs <;> try norm_num
  omega

lemma boxBlur1D_mono (r : Nat) (m : Int → ℚ) (hm : Monotone m) :
    Monotone (boxBlur1D r m) := by
  intro x y hxy
  unfold boxBlur1D
  rw [div_le_div_right (by positivity)]
  apply List.sum_le_sum
  intro j hj
  exact hm (by omega)

lemma range_map_step_sum (n t : Nat) (ht : t ≤ n) :
    (((List.range n).map fun (j : Nat) => if (j : Int) < (t : Int) then (0 : ℚ) else 255).sum)
      = 255 * ((n : ℚ) - (t : ℚ)) := by
  induction n with
  | zero =>
    have h0 : t = 0 := by omega
    subst h0
    simp
  | succ n ihn =>
    rcases Nat.lt_or_ge n t with hlt | hge
    · have ht' : t = n + 1 := by omega
      subst ht'
      rw [List.sum_eq_zero]
      · push_cast
        ring
      · intro x hx
        rw [List.mem_map] at hx
        obtain ⟨j, hj, rfl⟩ := hx
        rw [List.mem_range] at hj
        rw [if_pos (by exact_mod_cast hj)]
    · rw [List.range_succ, List.map_append, List.sum_append, ihn hge]
      have hn : ¬ ((n : Int) < (t : Int)) := by exact_mod_cast Nat.not_lt.mpr hge
      simp only [List.map_cons, List.map_nil, List.sum_cons, List.sum_nil, if_neg hn]
      push_cast
      ring

lemma featheredStep_at_left (r : Nat) (b : Int) :
    boxBlur1D r (stepMask b) (b - 1) = 255 * (r : ℚ) / (2 * r + 1) := by
  unfold boxBlur1D
  have hmap : ((List.range (2 * r + 1)).map fun (j : Nat) => stepMask b (b - 1 - (r : Int) + (j : Int)))
      = (List.range (2 * r + 1)).map fun (j : Nat) =>
          if (j : Int) < ((r + 1 : Nat) : Int) then (0 : ℚ) else 255 := by
    apply List.map_congr_left
    intro j hj
    unfold stepMask
    have hiff : (b - 1 - (r : Int) + (j : Int) < b) ↔ ((j : Int) < ((r + 1 : Nat) : Int)) := by
      push_cast
      omega
    simp only [hiff]
  rw [hmap, range_map_step_sum (2 * r + 1) (r + 1) (by omega)]
  push_cast
  ring

lemma featheredStep_at_right (r : Nat) (b : Int) :
    boxBlur1D r (stepMask b) b = 255 * ((r : ℚ) + 1) / (2 * r + 1) := by
  unfold boxBlur1D
  have hmap : ((List.range (2 * r + 1)).map fun (j : Nat) => stepMask b (b - (r : Int) + (j : Int)))
      = (List.range (2 * r + 1)).map fun (j : Nat) =>
          if (j : Int) < ((r : Nat) : Int) then (0 : ℚ) else 255 := by
    apply List.map_congr_left
    intro j hj
    unfold stepMask
    have hiff : (b - (r : Int) + (j : Int) < b) ↔ ((j : Int) < ((r : Nat) : Int)) := by
      push_cast
      omega
    simp only [hiff]
  rw [hmap, range_map_step_sum (2 * r + 1) r (by omega)]
  push_cast
  ring

lemma lerp_mono (a c : ℚ) (hac : a ≤ c) {t u : ℚ} (h : t ≤ u) : lerp a c t ≤ lerp a c u := by
  unfold lerp
  nlinarith

lemma lerp_between (a c t : ℚ) (hac : a < c) (h0 : 0 < t) (h1 : t < 1) :
    a < lerp a c t ∧ lerp a c t < c := by
  unfold lerp
  constructor <;> nlinarith

/-- C4: spec-modelled blur mode at a hard disc boundary.  Along a scanline
crossing the boundary at `b`, with the original and globally blurred
intensities locally constant (`orig < blurred`), the feathered-mask blend is
monotone in the scan coordinate and takes values strictly between the two
intensities at (at least) two distinct pixels whenever kernelSize ≥ 3 — the
transition is gradual and spans more than one pixel, never a single-pixel
hard seam. -/
theorem blur_boundary_transition_feathered (k : Nat) (b : Int) (orig blurred : ℚ)
    (hk : 3 ≤ k) (hob : orig < blurred) :
    (∀ x y : Int, x ≤ y →
        blurModeOutput k b orig blurred x ≤ blurModeOutput k b orig blurred y)
    ∧ (∃ x y : Int, x ≠ y
        ∧ (orig < blurModeOutput k b orig blurred x
            ∧ blurModeOutput k b orig blurred x < blurred)
        ∧ (orig < blurModeOutput k b orig blurred y
            ∧ blurModeOutput k b orig blurred y < blurred)) := by
  have hr : 1 ≤ featherRadius k := by
    unfold featherRadius
    omega
  have hrq : (0 : ℚ) < (featherRadius k : ℚ) := by exact_mod_cast hr
  have hden : (0 : ℚ) < 2 * (featherRadius k : ℚ) + 1 := by positivity
  constructor
  · intro x y hxy
    unfold blurModeOutput
    apply lerp_mono _ _ (le_of_lt hob)
    rw [div_le_div_right (by norm_num : (0 : ℚ) < 255)]
    exact boxBlur1D_mono (featherRadius k) (stepMask b) (stepMask_mono b) hxy
  · refine ⟨b - 1, b, by omega, ?_, ?_⟩
    · unfold blurModeOutput
      rw [featheredStep_at_left]
      have ha : 255 * (featherRadius k : ℚ) / (2 * (featherRadius k : ℚ) + 1) / 255
          = (featherRadius k : ℚ) / (2 * (featherRadius k : ℚ) + 1) := by
        field_simp
        ring
      rw [ha]
      exact lerp_between _ _ _ hob (div_pos hrq hden)
        ((div_lt_one hden).mpr (by linarith))
    · unfold blurModeOutput
      rw [featheredStep_at_right]
      have ha : 255 * ((featherRadius k : ℚ) + 1) / (2 * (featherRadius k : ℚ) + 1) / 255
          = ((featherRadius k : ℚ) + 1) / (2 * (featherRadius k : ℚ) + 1) := by
        field_simp
        ring
      rw [ha]
      exact lerp_between _ _ _ hob (by positivity)
        ((div_lt_one hden).mpr (by linarith))

theorem blur_boundary_transition_feathered_check :
    (∀ x y : Int, x ≤ y → blurModeOutput 3 0 0 255 x ≤ blurModeOutput 3 0 0 255 y)
    ∧ (∃ x y : Int, x ≠ y
        ∧ (0 < blurModeOutput 3 0 0 255 x ∧ blurModeOutput 3 0 0 255 x < 255)
        ∧ (0 < blurModeOutput 3 0 0 255 y ∧ blurModeOutput 3 0 0 255 y < 255)) :=
  blur_boundary_transition_feathered 3 0 0 255 (by norm_num) (by norm_num)
